import Mathlib

/-!
Shallow embedding of the 2D correlation routine `convolve2d` from the
notebook `lecture_3/CEx4_Convolutions_&_Filters.ipynb`, together with the
`averaging_kernel` used by its tests.  Images and kernels are dense 2D
numeric arrays; we model them as lists of rows over `ℚ` (exact arithmetic
in place of floating point).  The numpy call `np.zeros((output_height,
output_width))` raises a `ValueError` when either requested dimension is
negative; the embedding reflects this by returning `Except.error` in
exactly that case, and `Except.ok` otherwise.  No other failure point
exists in the source function.
-/

/-- A 2D numeric array (numpy `ndarray` of rank 2), as a list of rows. -/
abbrev Grid : Type := List (List ℚ)

/-- `image.shape[0]`: the number of rows. -/
def gridHeight (g : Grid) : Nat := g.length

/-- `image.shape[1]`: the row length.  numpy arrays are rectangular, so for
a nonempty rectangular grid this is the common length of all rows. -/
def gridWidth (g : Grid) : Nat := (g.getD 0 []).length

/-- The grid `g` is a rectangular `h × w` array: `h` rows, each of length
`w`.  This holds of every rank-2 numpy array of shape `(h, w)`. -/
def Rect (g : Grid) (h w : Nat) : Prop :=
  g.length = h ∧ ∀ row ∈ g, row.length = w

instance (g : Grid) (h w : Nat) : Decidable (Rect g h w) :=
  decidable_of_iff (g.length = h ∧ ∀ row ∈ g, row.length = w) Iff.rfl

/-- `g[i, j]`: element access, with an out-of-range default of `0` (the
source only indexes in bounds). -/
def getCell (g : Grid) (i j : Nat) : ℚ := ((g.getD i []).getD j 0)

/-- `np.pad(image, ((ph, ph), (pw, pw)), mode='constant')`: surround the
grid with `ph` all-zero rows above and below and `pw` zero columns on each
side. -/
def padGrid (g : Grid) (ph pw : Nat) : Grid :=
  List.replicate ph (List.replicate (gridWidth g + 2 * pw) 0)
    ++ g.map (fun row => List.replicate pw 0 ++ row ++ List.replicate pw 0)
    ++ List.replicate ph (List.replicate (gridWidth g + 2 * pw) 0)

/-- The message of the `ValueError` numpy raises from
`np.zeros((output_height, output_width))` when a dimension is negative. -/
def negDimMsg : String := "ValueError: negative dimensions are not allowed"

/-- `np.sum(region * kernel)` for the window of `image` anchored at
`(i, j)`: the sum over all kernel positions `(r, c)` of
`image[i+r, j+c] * kernel[r, c]`. -/
def correlateCell (image kernel : Grid) (i j : Nat) : ℚ :=
  ((List.range (gridHeight kernel)).map (fun r =>
    ((List.range (gridWidth kernel)).map (fun c =>
      getCell image (i + r) (j + c) * getCell kernel r c)).sum)).sum

/-- The loop part of `convolve2d`, applied to the (possibly already
padded) image: compute `output_height = H' - Kh + 1` and
`output_width = W' - Kw + 1` (as signed quantities, as Python does),
allocate the output with `np.zeros` — which fails when a dimension is
negative — and fill every cell with the windowed sum. -/
def convolve2dCore (image kernel : Grid) : Except String Grid :=
  let outH : Int := (gridHeight image : Int) - gridHeight kernel + 1
  let outW : Int := (gridWidth image : Int) - gridWidth kernel + 1
  if outH < 0 ∨ outW < 0 then Except.error negDimMsg
  else Except.ok ((List.range outH.toNat).map (fun i =>
    (List.range outW.toNat).map (fun j => correlateCell image kernel i j)))

/-- `convolve2d(image, kernel, padding)` from the notebook: when
`padding == 'same'`, first zero-pad the image by `kernel_height // 2` rows
and `kernel_width // 2` columns on each side; any other padding string
leaves the image untouched.  Then run the sliding-window loop. -/
def convolve2d (image kernel : Grid) (padding : String) : Except String Grid :=
  let image' :=
    if padding = "same" then
      padGrid image (gridHeight kernel / 2) (gridWidth kernel / 2)
    else image
  convolve2dCore image' kernel

/-- `averaging_kernel = np.ones((3, 3)) / 9` from the notebook's test
cell. -/
def averaging_kernel : Grid :=
  List.replicate 3 (List.replicate 3 ((1 : ℚ) / 9))

/-- Elementwise scalar multiple of a grid, `a * G`. -/
def gridSmul (a : ℚ) (g : Grid) : Grid :=
  g.map (fun row => row.map (fun x => a * x))

/-- Elementwise sum of two same-shaped grids, `G1 + G2`. -/
def gridAdd (g1 g2 : Grid) : Grid :=
  List.zipWith (fun r1 r2 => List.zipWith (fun x y => x + y) r1 r2) g1 g2

/-! ### Basic lemmas about the embedding -/

theorem listSum_range (f : Nat → ℚ) (n : Nat) :
    ((List.range n).map f).sum = ∑ i ∈ Finset.range n, f i := by
  induction n with
  | zero => simp
  | succ n ih =>
      rw [List.range_succ, List.map_append, List.sum_append, Finset.sum_range_succ, ih]
      simp

theorem getD_replicate_zero (n j : Nat) :
    (List.replicate n (0 : ℚ)).getD j 0 = 0 := by
  by_cases hj : j < n
  · rw [List.getD_eq_getElem _ _ (by simpa using hj), List.getElem_replicate]
  · rw [List.getD_eq_default _ _ (by simpa using Nat.le_of_not_lt hj)]

theorem zipWith_map_same {α β γ δ : Type} (f : β → γ → δ) (g₁ : α → β) (g₂ : α → γ)
    (l : List α) :
    List.zipWith f (l.map g₁) (l.map g₂) = l.map (fun x => f (g₁ x) (g₂ x)) := by
  induction l with
  | nil => rfl
  | cons x xs ih => simp [ih]

theorem Rect.height {g : Grid} {h w : Nat} (hg : Rect g h w) : gridHeight g = h := hg.1

theorem Rect.row {g : Grid} {h w : Nat} (hg : Rect g h w) {i : Nat} (hi : i < h) :
    (g.getD i []).length = w := by
  rw [List.getD_eq_getElem _ _ (hg.1 ▸ hi)]
  exact hg.2 _ (List.getElem_mem _)

theorem Rect.width {g : Grid} {h w : Nat} (hg : Rect g h w) (hh : 0 < h) :
    gridWidth g = w := hg.row hh

theorem Rect.mk_map (f : Nat → Nat → ℚ) (m n : Nat) :
    Rect ((List.range m).map (fun i => (List.range n).map (fun j => f i j))) m n := by
  constructor
  · simp
  · intro row hrow
    simp only [List.mem_map, List.mem_range] at hrow
    obtain ⟨i, _, rfl⟩ := hrow
    simp

theorem getCell_mk_map (f : Nat → Nat → ℚ) (m n i j : Nat) (hi : i < m) (hj : j < n) :
    getCell ((List.range m).map (fun i => (List.range n).map (fun j => f i j))) i j
      = f i j := by
  have hrow : ((List.range m).map (fun i => (List.range n).map (fun j => f i j))).getD i []
      = (List.range n).map (fun j => f i j) := by
    rw [List.getD_eq_getElem _ _ (by simpa using hi), List.getElem_map, List.getElem_range]
  unfold getCell
  rw [hrow, List.getD_eq_getElem _ _ (by simpa using hj), List.getElem_map, List.getElem_range]

theorem paddedRow_getD (row : List ℚ) (w pw j : Nat) (hrow : row.length = w) :
    (List.replicate pw (0 : ℚ) ++ row ++ List.replicate pw 0).getD j 0
      = if pw ≤ j ∧ j < pw + w then row.getD (j - pw) 0 else 0 := by
  rcases Nat.lt_or_ge j pw with hj | hj
  · rw [List.getD_append _ _ _ _ (by simp [hrow]; omega), List.getD_append _ _ _ _ (by simpa using hj),
      getD_replicate_zero, if_neg (by omega)]
  · rcases Nat.lt_or_ge j (pw + w) with hj2 | hj2
    · rw [List.getD_append _ _ _ _ (by simp [hrow]; omega),
        List.getD_append_right _ _ _ _ (by simpa using hj), List.length_replicate,
        if_pos ⟨hj, hj2⟩]
    · rw [List.getD_append_right _ _ _ _ (by simp [hrow]; omega), getD_replicate_zero,
        if_neg (by omega)]

theorem padGrid_rect {g : Grid} {h w : Nat} (hg : Rect g h w) (hh : 0 < h) (ph pw : Nat) :
    Rect (padGrid g ph pw) (h + 2 * ph) (w + 2 * pw) := by
  constructor
  · simp [padGrid, hg.1]; omega
  · intro row hrow
    simp only [padGrid, List.mem_append, List.mem_replicate, List.mem_map] at hrow
    rcases hrow with (⟨_, rfl⟩ | ⟨r, hr, rfl⟩) | ⟨_, rfl⟩
    · rw [List.length_replicate, hg.width hh]
    · have := hg.2 r hr
      simp [this]; omega
    · rw [List.length_replicate, hg.width hh]

theorem getCell_padGrid {g : Grid} {h w : Nat} (hg : Rect g h w)
    (ph pw i j : Nat) :
    getCell (padGrid g ph pw) i j
      = if ph ≤ i ∧ i < ph + h ∧ pw ≤ j ∧ j < pw + w then getCell g (i - ph) (j - pw)
        else 0 := by
  rcases Nat.lt_or_ge i ph with hi | hi
  · have hrowi : (padGrid g ph pw).getD i []
        = List.replicate (gridWidth g + 2 * pw) 0 := by
      unfold padGrid
      rw [List.getD_append _ _ _ _ (by simp; omega),
        List.getD_append _ _ _ _ (by simpa using hi),
        List.getD_eq_getElem _ _ (by simpa using hi), List.getElem_replicate]
    unfold getCell
    rw [hrowi, getD_replicate_zero, if_neg (by omega)]
  · rcases Nat.lt_or_ge i (ph + h) with hi2 | hi2
    · have hlt : i - ph < g.length := by rw [hg.1]; omega
      have hrowi : (padGrid g ph pw).getD i []
          = List.replicate pw 0 ++ g[i - ph] ++ List.replicate pw 0 := by
        unfold padGrid
        rw [List.getD_append _ _ _ _ (by simp [hg.1]; omega),
          List.getD_append_right _ _ _ _ (by simpa using hi), List.length_replicate,
          List.getD_eq_getElem _ _ (by simpa using hlt), List.getElem_map]
      unfold getCell
      rw [hrowi, paddedRow_getD _ w pw j (hg.2 _ (List.getElem_mem _)),
        List.getD_eq_getElem g _ hlt]
      by_cases hc : pw ≤ j ∧ j < pw + w
      · rw [if_pos hc, if_pos ⟨hi, hi2, hc.1, hc.2⟩]
      · rw [if_neg hc, if_neg (by tauto)]
    · have hrow0 : ∀ d, (padGrid g ph pw).getD i d
          = (List.replicate ph (List.replicate (gridWidth g + 2 * pw) (0 : ℚ))).getD
              (i - (ph + h)) d := by
        intro d
        unfold padGrid
        rw [List.getD_append_right _ _ _ _ (by simp [hg.1]; omega)]
        congr 1
        simp [hg.1]
      rcases Nat.lt_or_ge (i - (ph + h)) ph with hk | hk
      · have hrowi : (padGrid g ph pw).getD i []
            = List.replicate (gridWidth g + 2 * pw) 0 := by
          rw [hrow0, List.getD_eq_getElem _ _ (by simpa using hk), List.getElem_replicate]
        unfold getCell
        rw [hrowi, getD_replicate_zero, if_neg (by omega)]
      · have hrowi : (padGrid g ph pw).getD i [] = [] := by
          rw [hrow0, List.getD_eq_default _ _ (by simpa using hk)]
        unfold getCell
        rw [hrowi, if_neg (by omega)]
        rfl

theorem correlateCell_sum {kernel : Grid} {kh kw : Nat} (hk : Rect kernel kh kw)
    (hkh : 0 < kh) (image : Grid) (i j : Nat) :
    correlateCell image kernel i j
      = ∑ r ∈ Finset.range kh, ∑ c ∈ Finset.range kw,
          getCell image (i + r) (j + c) * getCell kernel r c := by
  unfold correlateCell
  rw [hk.height, hk.width hkh, listSum_range]
  exact Finset.sum_congr rfl (fun r _ => listSum_range _ _)

theorem convolve2dCore_ok {image kernel : Grid} {h w kh kw : Nat}
    (him : Rect image h w) (hh : 0 < h) (hk : Rect kernel kh kw) (hkh : 0 < kh)
    (hfh : kh ≤ h + 1) (hfw : kw ≤ w + 1) :
    convolve2dCore image kernel
      = Except.ok ((List.range (h + 1 - kh)).map (fun i =>
          (List.range (w + 1 - kw)).map (fun j => correlateCell image kernel i j))) := by
  simp only [convolve2dCore, him.height, him.width hh, hk.height, hk.width hkh]
  rw [if_neg (by omega)]
  have e1 : ((h : Int) - kh + 1).toNat = h + 1 - kh := by omega
  have e2 : ((w : Int) - kw + 1).toNat = w + 1 - kw := by omega
  rw [e1, e2]

theorem convolve2dCore_err {image kernel : Grid} {h w kh kw : Nat}
    (him : Rect image h w) (hh : 0 < h) (hk : Rect kernel kh kw) (hkh : 0 < kh)
    (hbig : h + 1 < kh ∨ w + 1 < kw) :
    convolve2dCore image kernel = Except.error negDimMsg := by
  simp only [convolve2dCore, him.height, him.width hh, hk.height, hk.width hkh]
  rw [if_pos (by omega)]

theorem convolve2d_valid_eq_core (image kernel : Grid) :
    convolve2d image kernel "valid" = convolve2dCore image kernel := by
  simp only [convolve2d]
  rw [if_neg (by decide)]

theorem convolve2d_same_eq_core (image kernel : Grid) :
    convolve2d image kernel "same"
      = convolve2dCore (padGrid image (gridHeight kernel / 2) (gridWidth kernel / 2))
          kernel := by
  simp [convolve2d]

theorem rect_eq_mk_map {g : Grid} {h w : Nat} (hg : Rect g h w) :
    (List.range h).map (fun i => (List.range w).map (fun j => getCell g i j)) = g := by
  apply List.ext_getElem
  · simp [hg.1]
  · intro i h1 h2
    have hi : i < h := by simpa using h1
    have hig : i < g.length := by rw [hg.1]; exact hi
    rw [List.getElem_map, List.getElem_range]
    apply List.ext_getElem
    · simp [hg.2 _ (List.getElem_mem _)]
    · intro j j1 j2
      have hjw : j < w := by simpa using j1
      rw [List.getElem_map, List.getElem_range]
      have hrow : g.getD i [] = g[i] := List.getD_eq_getElem _ _ hig
      show (g.getD i []).getD j 0 = g[i][j]
      rw [hrow]
      exact List.getD_eq_getElem _ _ (by rw [hg.2 _ (List.getElem_mem _)]; exact hjw)

/-! ### Claim theorems -/

/-- C3: for every image of size `h × w` (in particular any already-padded
image) and every `kh × kw` kernel, the `valid`-mode output of `convolve2d`
at a coordinate `(i, j)` with `i + kh ≤ h` and `j + kw ≤ w` equals the sum
over all kernel positions `(r, c)` of `image[i+r, j+c] * kernel[r, c]`:
cross-correlation, with the kernel applied without spatial flipping. -/
theorem convolve2d_entry_formula (image kernel : Grid) (h w kh kw i j : Nat)
    (him : Rect image h w) (hk : Rect kernel kh kw) (hkh : 0 < kh)
    (hi : i + kh ≤ h) (hj : j + kw ≤ w) :
    ∃ res, convolve2d image kernel "valid" = Except.ok res ∧
      getCell res i j = ∑ r ∈ Finset.range kh, ∑ c ∈ Finset.range kw,
        getCell image (i + r) (j + c) * getCell kernel r c := by
  have hh : 0 < h := by omega
  refine ⟨(List.range (h + 1 - kh)).map (fun i => (List.range (w + 1 - kw)).map
    (fun j => correlateCell image kernel i j)), ?_, ?_⟩
  · rw [convolve2d_valid_eq_core]
    exact convolve2dCore_ok him hh hk hkh (by omega) (by omega)
  · rw [getCell_mk_map _ _ _ _ _ (by omega) (by omega), correlateCell_sum hk hkh]

theorem convolve2d_entry_formula_witness :
    Rect [[(1 : ℚ), 2, 3], [4, 5, 6], [7, 8, 9]] 3 3 ∧ Rect [[(0 : ℚ), 1, 0]] 1 3 ∧
    (∃ res, convolve2d [[(1 : ℚ), 2, 3], [4, 5, 6], [7, 8, 9]] [[(0 : ℚ), 1, 0]] "valid"
        = Except.ok res ∧
      getCell res 0 0 = ∑ r ∈ Finset.range 1, ∑ c ∈ Finset.range 3,
        getCell [[(1 : ℚ), 2, 3], [4, 5, 6], [7, 8, 9]] (0 + r) (0 + c)
          * getCell [[(0 : ℚ), 1, 0]] r c) :=
  ⟨by decide, by decide,
    convolve2d_entry_formula _ _ 3 3 1 3 0 0 (by decide) (by decide) (by decide)
      (by decide) (by decide)⟩

/-- C5: for every `h × w` image and every odd-sized `kh × kw` kernel that
fits inside it, `convolve2d` in `valid` mode succeeds with an output grid of
dimensions `(h - kh + 1) × (w - kw + 1)`. -/
theorem convolve2d_valid_dims (image kernel : Grid) (h w kh kw : Nat)
    (him : Rect image h w) (hk : Rect kernel kh kw) (hkh : Odd kh) (hkw : Odd kw)
    (hfh : kh ≤ h) (hfw : kw ≤ w) :
    ∃ res, convolve2d image kernel "valid" = Except.ok res ∧
      Rect res (h - kh + 1) (w - kw + 1) := by
  have hoh : kh % 2 = 1 := Nat.odd_iff.mp hkh
  have hkh0 : 0 < kh := by omega
  have hh : 0 < h := by omega
  refine ⟨(List.range (h + 1 - kh)).map (fun i => (List.range (w + 1 - kw)).map
    (fun j => correlateCell image kernel i j)), ?_, ?_⟩
  · rw [convolve2d_valid_eq_core]
    exact convolve2dCore_ok him hh hk hkh0 (by omega) (by omega)
  · have e1 : h + 1 - kh = h - kh + 1 := by omega
    have e2 : w + 1 - kw = w - kw + 1 := by omega
    rw [e1, e2]
    exact Rect.mk_map _ _ _

theorem convolve2d_valid_dims_witness :
    Rect [[(1 : ℚ), 2, 3], [4, 5, 6], [7, 8, 9]] 3 3 ∧ Rect averaging_kernel 3 3 ∧
    Odd 3 ∧
    (∃ res, convolve2d [[(1 : ℚ), 2, 3], [4, 5, 6], [7, 8, 9]] averaging_kernel "valid"
        = Except.ok res ∧ Rect res (3 - 3 + 1) (3 - 3 + 1)) :=
  ⟨by decide, by decide, by decide,
    convolve2d_valid_dims _ _ 3 3 3 3 (by decide) (by decide) (by decide) (by decide)
      (by decide) (by decide)⟩

/-- C6: for every `h × w` image with `h, w ≥ 1` and every odd-sized kernel —
with no requirement that the kernel fit inside the image — `convolve2d` in
`same` mode succeeds with an output grid of exactly the input dimensions
`h × w`. -/
theorem convolve2d_same_dims (image kernel : Grid) (h w kh kw : Nat)
    (him : Rect image h w) (hh : 0 < h) (hw : 0 < w)
    (hk : Rect kernel kh kw) (hkh : Odd kh) (hkw : Odd kw) :
    ∃ res, convolve2d image kernel "same" = Except.ok res ∧ Rect res h w := by
  have hoh : kh % 2 = 1 := Nat.odd_iff.mp hkh
  have how : kw % 2 = 1 := Nat.odd_iff.mp hkw
  have hkh0 : 0 < kh := by omega
  have hpad := padGrid_rect him hh (kh / 2) (kw / 2)
  refine ⟨(List.range (h + 2 * (kh / 2) + 1 - kh)).map
    (fun i => (List.range (w + 2 * (kw / 2) + 1 - kw)).map
      (fun j => correlateCell (padGrid image (kh / 2) (kw / 2)) kernel i j)), ?_, ?_⟩
  · rw [convolve2d_same_eq_core, hk.height, hk.width hkh0]
    exact convolve2dCore_ok hpad (by omega) hk hkh0 (by omega) (by omega)
  · have e1 : h + 2 * (kh / 2) + 1 - kh = h := by omega
    have e2 : w + 2 * (kw / 2) + 1 - kw = w := by omega
    rw [e1, e2]
    exact Rect.mk_map _ _ _

theorem convolve2d_same_dims_witness :
    Rect [[(1 : ℚ), 2], [3, 4]] 2 2 ∧ (0 : Nat) < 2 ∧ Rect averaging_kernel 3 3 ∧
    Odd 3 ∧
    (∃ res, convolve2d [[(1 : ℚ), 2], [3, 4]] averaging_kernel "same"
        = Except.ok res ∧ Rect res 2 2) :=
  ⟨by decide, by decide, by decide, by decide,
    convolve2d_same_dims _ _ 2 2 3 3 (by decide) (by decide) (by decide) (by decide)
      (by decide) (by decide)⟩

/-- C4: in `same` mode `convolve2d` computes on the image padded with
exactly `kh / 2` rows and `kw / 2` columns on each side; the intermediate
grid has size `(h + 2·(kh/2)) × (w + 2·(kw/2))`, its interior is the
original image, and every cell of the added border is zero (no reflection
or edge replication); in `valid` mode the image is used unpadded. -/
theorem convolve2d_same_padding (image kernel : Grid) (h w kh kw : Nat)
    (him : Rect image h w) (hh : 0 < h) (hk : Rect kernel kh kw) (hkh : 0 < kh) :
    convolve2d image kernel "same"
        = convolve2dCore (padGrid image (kh / 2) (kw / 2)) kernel ∧
    convolve2d image kernel "valid" = convolve2dCore image kernel ∧
    Rect (padGrid image (kh / 2) (kw / 2)) (h + 2 * (kh / 2)) (w + 2 * (kw / 2)) ∧
    (∀ i j, i < h → j < w →
      getCell (padGrid image (kh / 2) (kw / 2)) (kh / 2 + i) (kw / 2 + j)
        = getCell image i j) ∧
    (∀ i j, i < kh / 2 ∨ kh / 2 + h ≤ i ∨ j < kw / 2 ∨ kw / 2 + w ≤ j →
      getCell (padGrid image (kh / 2) (kw / 2)) i j = 0) := by
  refine ⟨?_, convolve2d_valid_eq_core image kernel, padGrid_rect him hh _ _, ?_, ?_⟩
  · rw [convolve2d_same_eq_core, hk.height, hk.width hkh]
  · intro i j hi hj
    rw [getCell_padGrid him, if_pos (by omega)]
    have e1 : kh / 2 + i - kh / 2 = i := by omega
    have e2 : kw / 2 + j - kw / 2 = j := by omega
    rw [e1, e2]
  · intro i j hcond
    rw [getCell_padGrid him, if_neg (by omega)]

theorem convolve2d_same_padding_witness :
    Rect [[(1 : ℚ), 2], [3, 4]] 2 2 ∧ (0 : Nat) < 2 ∧ Rect averaging_kernel 3 3 ∧
    (0 : Nat) < 3 ∧
    (convolve2d [[(1 : ℚ), 2], [3, 4]] averaging_kernel "same"
        = convolve2dCore (padGrid [[(1 : ℚ), 2], [3, 4]] (3 / 2) (3 / 2))
            averaging_kernel ∧
      convolve2d [[(1 : ℚ), 2], [3, 4]] averaging_kernel "valid"
        = convolve2dCore [[(1 : ℚ), 2], [3, 4]] averaging_kernel ∧
      Rect (padGrid [[(1 : ℚ), 2], [3, 4]] (3 / 2) (3 / 2)) (2 + 2 * (3 / 2))
        (2 + 2 * (3 / 2)) ∧
      (∀ i j, i < 2 → j < 2 →
        getCell (padGrid [[(1 : ℚ), 2], [3, 4]] (3 / 2) (3 / 2)) (3 / 2 + i) (3 / 2 + j)
          = getCell [[(1 : ℚ), 2], [3, 4]] i j) ∧
      (∀ i j, i < 3 / 2 ∨ 3 / 2 + 2 ≤ i ∨ j < 3 / 2 ∨ 3 / 2 + 2 ≤ j →
        getCell (padGrid [[(1 : ℚ), 2], [3, 4]] (3 / 2) (3 / 2)) i j = 0)) :=
  ⟨by decide, by decide, by decide, by decide,
    convolve2d_same_padding _ _ 2 2 3 3 (by decide) (by decide) (by decide) (by decide)⟩

/-- C7: correlating any rectangular image with the 1×1 kernel `[[1]]`, in
either padding mode (in fact under any padding string), returns the input
image unchanged, element for element. -/
theorem convolve2d_identity_kernel (image : Grid) (h w : Nat) (him : Rect image h w)
    (mode : String) :
    convolve2d image [[(1 : ℚ)]] mode = Except.ok image := by
  have hpad : padGrid image 0 0 = image := by
    unfold padGrid
    simp
  have himg : (if mode = "same"
      then padGrid image (gridHeight [[(1 : ℚ)]] / 2) (gridWidth [[(1 : ℚ)]] / 2)
      else image) = image := by
    by_cases hm : mode = "same"
    · rw [if_pos hm]
      exact hpad
    · rw [if_neg hm]
  have hcore : convolve2dCore image [[(1 : ℚ)]] = Except.ok image := by
    rcases Nat.eq_zero_or_pos h with hz | hh
    · have hnil : image = [] := by
        subst hz
        exact List.length_eq_zero.mp him.1
      subst hnil
      rfl
    · have hk1 : gridHeight [[(1 : ℚ)]] = 1 := rfl
      have hk2 : gridWidth [[(1 : ℚ)]] = 1 := rfl
      have hone : getCell [[(1 : ℚ)]] 0 0 = 1 := rfl
      have hcell : ∀ i j, correlateCell image [[(1 : ℚ)]] i j = getCell image i j := by
        intro i j
        have hr1 : List.range 1 = [0] := rfl
        simp [correlateCell, hk1, hk2, hr1, hone]
      have hkrect : Rect [[(1 : ℚ)]] 1 1 := by decide
      rw [convolve2dCore_ok him hh hkrect one_pos (by omega) (by omega)]
      have e1 : h + 1 - 1 = h := by omega
      have e2 : w + 1 - 1 = w := by omega
      rw [e1, e2]
      congr 1
      simp only [hcell]
      exact rect_eq_mk_map him
  calc convolve2d image [[(1 : ℚ)]] mode
      = convolve2dCore image [[(1 : ℚ)]] := by
        simp only [convolve2d]
        rw [himg]
    _ = Except.ok image := hcore

theorem convolve2d_identity_kernel_witness :
    Rect [[(1 : ℚ), 2], [3, 4]] 2 2 ∧
    convolve2d [[(1 : ℚ), 2], [3, 4]] [[(1 : ℚ)]] "same"
      = Except.ok [[(1 : ℚ), 2], [3, 4]] :=
  ⟨by decide, convolve2d_identity_kernel _ 2 2 (by decide) "same"⟩

/-- C10: `convolve2d` never checks for an unrecognized padding mode: any
padding string other than exactly `"same"` (misspellings included) silently
behaves exactly as `"valid"` mode, with no padding applied. -/
theorem convolve2d_unrecognized_padding (image kernel : Grid) (s : String)
    (hs : s ≠ "same") :
    convolve2d image kernel s = convolve2d image kernel "valid" := by
  simp only [convolve2d]
  rw [if_neg hs, if_neg (by decide)]

theorem convolve2d_unrecognized_padding_witness :
    "vallid" ≠ "same" ∧
    convolve2d [[(1 : ℚ), 2], [3, 4]] averaging_kernel "vallid"
      = convolve2d [[(1 : ℚ), 2], [3, 4]] averaging_kernel "valid" :=
  ⟨by decide, convolve2d_unrecognized_padding _ _ "vallid" (by decide)⟩

theorem gridSmul_rect {g : Grid} {m n : Nat} (hg : Rect g m n) (a : ℚ) :
    Rect (gridSmul a g) m n := by
  constructor
  · simp [gridSmul, hg.1]
  · intro row hrow
    simp only [gridSmul, List.mem_map] at hrow
    obtain ⟨r, hr, rfl⟩ := hrow
    simp [hg.2 r hr]

theorem gridAdd_rect {g1 g2 : Grid} {m n : Nat} (h1 : Rect g1 m n) (h2 : Rect g2 m n) :
    Rect (gridAdd g1 g2) m n := by
  constructor
  · simp [gridAdd, h1.1, h2.1]
  · intro row hrow
    obtain ⟨i, hil, hie⟩ := List.mem_iff_getElem.mp hrow
    rw [← hie]
    simp only [gridAdd] at hil ⊢
    rw [List.getElem_zipWith]
    simp [h1.2 _ (List.getElem_mem _), h2.2 _ (List.getElem_mem _)]

theorem getCell_gridAdd_smul {g1 g2 : Grid} {m n : Nat} (h1 : Rect g1 m n)
    (h2 : Rect g2 m n) (a b : ℚ) (i j : Nat) (hi : i < m) (hj : j < n) :
    getCell (gridAdd (gridSmul a g1) (gridSmul b g2)) i j
      = a * getCell g1 i j + b * getCell g2 i j := by
  have hi1 : i < g1.length := by rw [h1.1]; exact hi
  have hi2 : i < g2.length := by rw [h2.1]; exact hi
  have hj1 : j < (g1[i]).length := by rw [h1.2 _ (List.getElem_mem _)]; exact hj
  have hj2 : j < (g2[i]).length := by rw [h2.2 _ (List.getElem_mem _)]; exact hj
  have hrow : (gridAdd (gridSmul a g1) (gridSmul b g2)).getD i []
      = List.zipWith (fun x y => x + y) (g1[i].map (fun x => a * x))
          (g2[i].map (fun x => b * x)) := by
    simp only [gridAdd, gridSmul]
    rw [List.getD_eq_getElem _ _ (by simp; omega), List.getElem_zipWith,
      List.getElem_map, List.getElem_map]
  have hent : (List.zipWith (fun x y => x + y) (g1[i].map (fun x => a * x))
      (g2[i].map (fun x => b * x))).getD j 0 = a * g1[i][j] + b * g2[i][j] := by
    rw [List.getD_eq_getElem _ _ (by simp; omega), List.getElem_zipWith,
      List.getElem_map, List.getElem_map]
  have e1 : g1.getD i [] = g1[i] := List.getD_eq_getElem _ _ hi1
  have e2 : g2.getD i [] = g2[i] := List.getD_eq_getElem _ _ hi2
  show (_ : List ℚ).getD j 0 = a * (g1.getD i []).getD j 0 + b * (g2.getD i []).getD j 0
  rw [hrow, hent, e1, e2, List.getD_eq_getElem _ _ hj1, List.getD_eq_getElem _ _ hj2]

theorem correlateCell_linear {K1 K2 : Grid} {kh kw : Nat} (hK1 : Rect K1 kh kw)
    (hK2 : Rect K2 kh kw) (hkh : 0 < kh) (a b : ℚ) (image : Grid) (i j : Nat) :
    correlateCell image (gridAdd (gridSmul a K1) (gridSmul b K2)) i j
      = a * correlateCell image K1 i j + b * correlateCell image K2 i j := by
  have hKc : Rect (gridAdd (gridSmul a K1) (gridSmul b K2)) kh kw :=
    gridAdd_rect (gridSmul_rect hK1 a) (gridSmul_rect hK2 b)
  rw [correlateCell_sum hKc hkh, correlateCell_sum hK1 hkh, correlateCell_sum hK2 hkh,
    Finset.mul_sum, Finset.mul_sum, ← Finset.sum_add_distrib]
  refine Finset.sum_congr rfl (fun r hr => ?_)
  rw [Finset.mul_sum, Finset.mul_sum, ← Finset.sum_add_distrib]
  refine Finset.sum_congr rfl (fun c hc => ?_)
  rw [getCell_gridAdd_smul hK1 hK2 a b r c (Finset.mem_range.mp hr)
    (Finset.mem_range.mp hc)]
  ring

theorem gridSmul_mk_map (a : ℚ) (f : Nat → Nat → ℚ) (m n : Nat) :
    gridSmul a ((List.range m).map (fun i => (List.range n).map (fun j => f i j)))
      = (List.range m).map (fun i => (List.range n).map (fun j => a * f i j)) := by
  simp [gridSmul, List.map_map, Function.comp]

theorem gridAdd_mk_map (f g : Nat → Nat → ℚ) (m n : Nat) :
    gridAdd ((List.range m).map (fun i => (List.range n).map (fun j => f i j)))
        ((List.range m).map (fun i => (List.range n).map (fun j => g i j)))
      = (List.range m).map (fun i => (List.range n).map (fun j => f i j + g i j)) := by
  unfold gridAdd
  rw [zipWith_map_same]
  refine List.map_congr_left (fun i _ => ?_)
  rw [zipWith_map_same]

/-- C8: correlation is linear in the kernel.  For every image, every pair of
same-shaped kernels `K1`, `K2` and scalars `a`, `b`, and every padding mode,
`convolve2d image (a*K1 + b*K2) mode` agrees with the elementwise
combination `a * convolve2d image K1 mode + b * convolve2d image K2 mode`
(exactly, in the embedding's exact rational arithmetic); when the calls
fail, all fail identically. -/
theorem convolve2d_linearity (image K1 K2 : Grid) (kh kw : Nat) (a b : ℚ)
    (hK1 : Rect K1 kh kw) (hK2 : Rect K2 kh kw) (hkh : 0 < kh) (mode : String) :
    convolve2d image (gridAdd (gridSmul a K1) (gridSmul b K2)) mode
      = (convolve2d image K1 mode).bind (fun r1 =>
          (convolve2d image K2 mode).map (fun r2 =>
            gridAdd (gridSmul a r1) (gridSmul b r2))) := by
  have hKc : Rect (gridAdd (gridSmul a K1) (gridSmul b K2)) kh kw :=
    gridAdd_rect (gridSmul_rect hK1 a) (gridSmul_rect hK2 b)
  have h1 : convolve2d image K1 mode
      = convolve2dCore (if mode = "same" then padGrid image (kh / 2) (kw / 2) else image)
          K1 := by
    simp only [convolve2d, hK1.height, hK1.width hkh]
  have h2 : convolve2d image K2 mode
      = convolve2dCore (if mode = "same" then padGrid image (kh / 2) (kw / 2) else image)
          K2 := by
    simp only [convolve2d, hK2.height, hK2.width hkh]
  have h3 : convolve2d image (gridAdd (gridSmul a K1) (gridSmul b K2)) mode
      = convolve2dCore (if mode = "same" then padGrid image (kh / 2) (kw / 2) else image)
          (gridAdd (gridSmul a K1) (gridSmul b K2)) := by
    simp only [convolve2d, hKc.height, hKc.width hkh]
  rw [h1, h2, h3]
  generalize (if mode = "same" then padGrid image (kh / 2) (kw / 2) else image) = img
  simp only [convolve2dCore, hKc.height, hKc.width hkh, hK1.height, hK1.width hkh,
    hK2.height, hK2.width hkh]
  by_cases hc : ((gridHeight img : Int) - kh + 1) < 0 ∨ ((gridWidth img : Int) - kw + 1) < 0
  · rw [if_pos hc, if_pos hc, if_pos hc]
    rfl
  · rw [if_neg hc, if_neg hc, if_neg hc]
    have hbind : ∀ A B C : Grid, C = gridAdd (gridSmul a A) (gridSmul b B) →
        (Except.ok C : Except String Grid)
          = (Except.ok A : Except String Grid).bind (fun r1 =>
              (Except.ok B : Except String Grid).map (fun r2 =>
                gridAdd (gridSmul a r1) (gridSmul b r2))) := by
      intro A B C hC
      subst hC
      rfl
    refine hbind _ _ _ ?_
    rw [gridSmul_mk_map, gridSmul_mk_map, gridAdd_mk_map]
    have hlin := correlateCell_linear hK1 hK2 hkh a b img
    simp only [hlin]

theorem convolve2d_linearity_witness :
    Rect [[(2 : ℚ)]] 1 1 ∧ Rect [[(5 : ℚ)]] 1 1 ∧ (0 : Nat) < 1 ∧
    convolve2d [[(1 : ℚ), 2], [3, 4]] (gridAdd (gridSmul 3 [[(2 : ℚ)]])
        (gridSmul 7 [[(5 : ℚ)]])) "same"
      = (convolve2d [[(1 : ℚ), 2], [3, 4]] [[(2 : ℚ)]] "same").bind (fun r1 =>
          (convolve2d [[(1 : ℚ), 2], [3, 4]] [[(5 : ℚ)]] "same").map (fun r2 =>
            gridAdd (gridSmul 3 r1) (gridSmul 7 r2))) :=
  ⟨by decide, by decide, by decide,
    convolve2d_linearity _ _ _ 1 1 3 7 (by decide) (by decide) (by decide) "same"⟩

theorem range_one_eq : List.range 1 = [0] := rfl

theorem range_two_eq : List.range 2 = [0, 1] := rfl

theorem range_three_eq : List.range 3 = [0, 1, 2] := rfl

/-- C9: on the 3×3 all-255 image with the notebook's 3×3 averaging kernel
(all entries 1/9) in `same` mode, the output is a 3×3 grid whose four
corner cells each equal `255·4/9` (only 4 of the 9 window cells fall inside
the image at a corner, the rest being zero padding) and whose center cell
equals `255`. -/
theorem convolve2d_zero_padding_boundary :
    ∃ res, convolve2d (List.replicate 3 (List.replicate 3 (255 : ℚ)))
        averaging_kernel "same" = Except.ok res ∧
      gridHeight res = 3 ∧ gridWidth res = 3 ∧
      getCell res 0 0 = 255 * 4 / 9 ∧ getCell res 0 2 = 255 * 4 / 9 ∧
      getCell res 2 0 = 255 * 4 / 9 ∧ getCell res 2 2 = 255 * 4 / 9 ∧
      getCell res 1 1 = 255 := by
  refine ⟨[[340 / 3, 170, 340 / 3], [170, 255, 170], [340 / 3, 170, 340 / 3]],
    ?_, ?_, ?_, ?_, ?_, ?_, ?_, ?_⟩
  · rw [convolve2d_same_eq_core]
    have hpad : Rect (padGrid (List.replicate 3 (List.replicate 3 (255 : ℚ)))
        (gridHeight averaging_kernel / 2) (gridWidth averaging_kernel / 2)) 5 5 := by
      decide
    rw [convolve2dCore_ok hpad (by decide) (⟨rfl, by decide⟩ : Rect averaging_kernel 3 3)
      (by decide) (by decide) (by decide)]
    norm_num [correlateCell, getCell, gridWidth, gridHeight, padGrid, averaging_kernel,
      List.replicate, range_one_eq, range_two_eq, range_three_eq]
  all_goals norm_num [gridHeight, gridWidth, getCell]

/-- C1 counterexample: on a 4×4 image with a 5×5 kernel in `valid` mode,
`convolve2d` does not fail at all — it silently returns the empty (0×0)
grid, so the claimed `IncompatibleDimensions` failure does not occur. -/
theorem convolve2d_4x4_5x5_returns_grid :
    convolve2d (List.replicate 4 (List.replicate 4 (0 : ℚ)))
      (List.replicate 5 (List.replicate 5 (1 : ℚ))) "valid"
      = Except.ok [] := by
  rw [convolve2d_valid_eq_core]
  norm_num [convolve2dCore, gridWidth, gridHeight, List.replicate]

/-- C1 amended: `convolve2d` performs no dimension validation in `valid`
mode.  With `kh ≤ h + 1` and `kw ≤ w + 1` it silently returns a
`(h+1-kh) × (w+1-kw)` grid — degenerate (zero rows and/or zero columns)
whenever `kh > h` or `kw > w`, e.g. a 0×0 grid for a 5×5 kernel on a 4×4
image; only when `kh > h + 1` or `kw > w + 1` does it fail, and then with
numpy's negative-dimensions `ValueError`, not `IncompatibleDimensions`. -/
theorem convolve2d_oversized_kernel_valid (image kernel : Grid) (h w kh kw : Nat)
    (him : Rect image h w) (hh : 0 < h) (hk : Rect kernel kh kw) (hkh : 0 < kh) :
    (kh ≤ h + 1 → kw ≤ w + 1 →
      ∃ res, convolve2d image kernel "valid" = Except.ok res ∧
        Rect res (h + 1 - kh) (w + 1 - kw)) ∧
    (h + 1 < kh ∨ w + 1 < kw →
      convolve2d image kernel "valid" = Except.error negDimMsg) := by
  constructor
  · intro hfh hfw
    refine ⟨(List.range (h + 1 - kh)).map (fun i => (List.range (w + 1 - kw)).map
      (fun j => correlateCell image kernel i j)), ?_, Rect.mk_map _ _ _⟩
    rw [convolve2d_valid_eq_core]
    exact convolve2dCore_ok him hh hk hkh hfh hfw
  · intro hbig
    rw [convolve2d_valid_eq_core]
    exact convolve2dCore_err him hh hk hkh hbig

theorem convolve2d_oversized_kernel_valid_witness :
    Rect (List.replicate 4 (List.replicate 4 (0 : ℚ))) 4 4 ∧ (0 : Nat) < 4 ∧
    Rect (List.replicate 5 (List.replicate 5 (1 : ℚ))) 5 5 ∧ (0 : Nat) < 5 ∧
    ((5 ≤ 4 + 1 → 5 ≤ 4 + 1 →
      ∃ res, convolve2d (List.replicate 4 (List.replicate 4 (0 : ℚ)))
          (List.replicate 5 (List.replicate 5 (1 : ℚ))) "valid" = Except.ok res ∧
        Rect res (4 + 1 - 5) (4 + 1 - 5)) ∧
    (4 + 1 < 5 ∨ 4 + 1 < 5 →
      convolve2d (List.replicate 4 (List.replicate 4 (0 : ℚ)))
          (List.replicate 5 (List.replicate 5 (1 : ℚ))) "valid"
        = Except.error negDimMsg)) :=
  ⟨by decide, by decide, by decide, by decide,
    convolve2d_oversized_kernel_valid _ _ 4 4 5 5 (by decide) (by decide) (by decide)
      (by decide)⟩

/-- C2 counterexample: a 2×3 (even-height) kernel is not rejected —
`convolve2d` accepts it and computes an ordinary sliding-window result, so
the claimed `InvalidKernelShape` failure does not occur. -/
theorem convolve2d_even_kernel_returns_grid :
    convolve2d [[(1 : ℚ), 2, 3], [4, 5, 6], [7, 8, 9]] [[(1 : ℚ), 0, 0], [0, 1, 0]]
      "valid" = Except.ok [[6], [12]] := by
  rw [convolve2d_valid_eq_core]
  rw [convolve2dCore_ok (⟨rfl, by decide⟩ : Rect [[(1 : ℚ), 2, 3], [4, 5, 6], [7, 8, 9]] 3 3)
    (by decide) (⟨rfl, by decide⟩ : Rect [[(1 : ℚ), 0, 0], [0, 1, 0]] 2 3) (by decide)
    (by decide) (by decide)]
  norm_num [correlateCell, getCell, gridWidth, gridHeight, range_one_eq, range_two_eq,
    range_three_eq]

/-- C2 amended: `convolve2d` performs no kernel-shape validation: kernels of
even or zero height/width are processed by the same sliding-window formula
as any other kernel, and the only error the function can ever produce is
numpy's negative-dimensions `ValueError` (from the output allocation) —
never an `InvalidKernelShape` condition. -/
theorem convolve2d_no_shape_check (image kernel : Grid) (padding e : String)
    (he : convolve2d image kernel padding = Except.error e) : e = negDimMsg := by
  simp only [convolve2d, convolve2dCore] at he
  split at he <;> split at he
  all_goals
    first
      | (injection he with h1; exact h1.symm)
      | exact Except.noConfusion he

theorem convolve2d_no_shape_check_witness :
    convolve2d [[(1 : ℚ)]] [[(1 : ℚ)], [1], [1], [1]] "valid" = Except.error negDimMsg ∧
    negDimMsg = negDimMsg := by
  have herr : convolve2d [[(1 : ℚ)]] [[(1 : ℚ)], [1], [1], [1]] "valid"
      = Except.error negDimMsg := by
    rw [convolve2d_valid_eq_core]
    norm_num [convolve2dCore, gridWidth, gridHeight]
  exact ⟨herr, convolve2d_no_shape_check [[(1 : ℚ)]] [[(1 : ℚ)], [1], [1], [1]] "valid"
    negDimMsg herr⟩
